import Mathlib

/-
Verification of the ensemble-answering service (Go backend, `main.go` /
streaming variant). The Go source is shallowly embedded: every pure
computation is translated to a Lean function keeping the source's names,
and the two HTTP handlers are modelled as pure functions from the
outcomes of their external calls (the per-provider generation results,
the judge backend's output, the synthesis backend's output) to the
response, the emitted NDJSON frames, the cache state after the request,
and the number of backend calls of each kind the handler issued.
-/

set_option autoImplicit false

deriving instance DecidableEq for Except

namespace LLMEnsemble

/-! ## Go string primitives

The service manipulates Go strings: `len` is the UTF-8 byte length,
`strings.TrimSpace` trims Unicode white space from both ends, and
`strings.Count(s, "\n")` counts newline bytes.  These are modelled on
`String.data` (the list of characters) so that concrete evaluation by
`decide` is cheap. -/

/-- Number of UTF-8 bytes used to encode one code point; `len` of a Go
string is the sum of these over its runes. -/
def charBytes (c : Char) : Nat :=
  if c.toNat < 0x80 then 1
  else if c.toNat < 0x800 then 2
  else if c.toNat < 0x10000 then 3
  else 4

/-- Go `len(s)`: the UTF-8 byte length of the string. -/
def byteLen (s : String) : Nat :=
  (s.data.map charBytes).sum

/-- The Unicode White_Space property, the set trimmed by Go's
`strings.TrimSpace` (via `unicode.IsSpace`). -/
def isGoSpace (c : Char) : Bool :=
  let n := c.toNat
  n = 0x20 ∨ (0x9 ≤ n ∧ n ≤ 0xD) ∨ n = 0x85 ∨ n = 0xA0 ∨
  n = 0x1680 ∨ (0x2000 ≤ n ∧ n ≤ 0x200A) ∨ n = 0x2028 ∨ n = 0x2029 ∨
  n = 0x202F ∨ n = 0x205F ∨ n = 0x3000

/-- Go `strings.TrimSpace s`: drop white space from both ends. -/
def trimSpace (s : String) : String :=
  String.mk (((s.data.dropWhile isGoSpace).reverse.dropWhile isGoSpace).reverse)

/-- Go `strings.Count(s, "\n")`: number of newline characters. -/
def countNL (s : String) : Nat :=
  s.data.count '\n'

/-- ASCII fragment of Go `strings.ToLower`; the handlers apply it only to
the short `mode` field. -/
def toLowerGo (s : String) : String :=
  String.mk (s.data.map Char.toLower)

/-- Concatenation of a list of strings (the value accumulated by a
`strings.Builder` receiving the fragments in order). -/
def concatList : List String → String
  | [] => ""
  | s :: rest => s ++ concatList rest

/-! ## Data model (`main.go` lines 19–39) -/

/-- One backend's answer plus its observed latency (`type Candidate`). -/
structure Candidate where
  provider : String
  text : String
  latencyMs : Int
  deriving DecidableEq, Repr

/-- The response payload (`type AnswerResponse`). -/
structure AnswerResponse where
  final : String
  candidates : List Candidate
  cached : Bool
  mode : String
  deriving DecidableEq, Repr

/-- A backend descriptor (`type provider`). -/
structure provider where
  name : String
  model : String
  deriving DecidableEq, Repr

/-! ## Cache (in-memory TTL; source section "Cache")

`cacheMap` is a Go map from key to `cacheItem`; it is modelled as an
association list in which `cacheSet` prepends and `lookupCache` returns
the most recent binding, giving map semantics with last-write-wins.
Instants (`time.Time`) are modelled as natural numbers; `time.Now()` is
passed in explicitly as `now`.  `cacheKey` hex-encodes a SHA-256 of
`mode ++ "::" ++ prompt`; the hash is abstracted away and the preimage
itself is used as the key (the claims never exercise hash collisions). -/

/-- A stored response plus its expiry instant (`type cacheItem`). -/
structure cacheItem where
  val : AnswerResponse
  exp : Nat
  deriving DecidableEq, Repr

/-- The cache state, one binding per key, most recent first. -/
def CacheMap := List (String × cacheItem)

instance : DecidableEq CacheMap := by
  unfold CacheMap
  infer_instance

/-- Key derivation (`cacheKey`): deterministic in `(mode, prompt)`. -/
def cacheKey (prompt mode : String) : String :=
  mode ++ "::" ++ prompt

/-- Map access `cacheMap[key]`: the most recently written binding. -/
def lookupCache : CacheMap → String → Option cacheItem
  | [], _ => none
  | (k, it) :: rest, key => if k = key then some it else lookupCache rest key

/-- Source `cacheGet`: a hit only when the key is bound and `now` is not
after the stored expiry (`time.Now().After(it.exp)` is strict). -/
def cacheGet (m : CacheMap) (key : String) (now : Nat) : Option AnswerResponse :=
  match lookupCache m key with
  | none => none
  | some it => if now > it.exp then none else some it.val

/-- Source `cacheSet`: bind `key` to the value expiring at `now + ttl`. -/
def cacheSet (m : CacheMap) (key : String) (val : AnswerResponse) (now ttl : Nat) : CacheMap :=
  (key, ⟨val, now + ttl⟩) :: m

/-! ## Fan-out (source `fanOut`)

Each provider is queried concurrently; a call that errors or yields
empty trimmed text is dropped, the rest become candidates carrying the
already-trimmed text (`ollamaGenerate` returns `strings.TrimSpace` of
the backend response).  The channel arrival order is
scheduling-dependent, so the model takes the arrival-ordered list of
call outcomes as an input.  The collected list is then sorted ascending
by latency with `sort.Slice`; for the slice sizes that occur here (at
most three providers) `sort.Slice` performs its insertion-sort small
case, which `insertBy`/`sortBy` below reproduce exactly. -/

/-- Outcome of one provider call, in channel arrival order: `response`
is `none` on a transport / status / decode error, otherwise the raw
response body text. -/
structure FanResult where
  providerName : String
  response : Option String
  latencyMs : Int
  deriving DecidableEq, Repr

/-- Go's `insertionSortCmpFunc` inner loop: insert `x` into the already
sorted `l`, moving it left past every element `y` with `lt x y`. -/
def insertBy {α : Type} (lt : α → α → Bool) (x : α) : List α → List α
  | [] => [x]
  | y :: ys => if lt x y then x :: y :: ys else y :: insertBy lt x ys

/-- Go's insertion sort (the `sort.Slice` small-slice case, used for
every range of at most 12 elements): fold `insertBy` over the list. -/
def sortBy {α : Type} (lt : α → α → Bool) (l : List α) : List α :=
  l.foldl (fun acc x => insertBy lt x acc) []

/-- Latency comparison used by `fanOut`'s `sort.Slice` call. -/
def latLt (a b : Candidate) : Bool :=
  a.latencyMs < b.latencyMs

/-- Source `fanOut`, as a function of the arrival-ordered call results:
keep the successful, non-empty answers and sort them fastest first. -/
def fanOut (arrivals : List FanResult) : List Candidate :=
  sortBy latLt <| arrivals.filterMap fun r =>
    match r.response with
    | none => none
    | some raw =>
      let text := trimSpace raw
      if trimSpace text = "" then none else some ⟨r.providerName, text, r.latencyMs⟩

/-! ## Judge (source `judgeCandidates`)

The judge builds one evaluation prompt, calls the judge backend, parses
the reply as a JSON array of `{idx, score, notes}`, drops entries whose
index is out of range, fails when nothing usable remains, and sorts the
survivors by score descending with `sort.Slice`.  The backend call and
the JSON parse are external, so their combined outcome is an input of
the model. -/

/-- One element of the judge's parsed JSON array (the anonymous struct
local to `judgeCandidates`). -/
structure judgeRawEntry where
  idx : Int
  score : Int
  notes : String
  deriving DecidableEq, Repr

/-- Source `type scored`: a validated judge entry. -/
structure scored where
  Idx : Int
  Score : Int
  Notes : String
  deriving DecidableEq, Repr

/-- Combined outcome of the judge's backend call and JSON parse. -/
inductive JudgeOutcome where
  /-- `ollamaGenerate` returned an error. -/
  | genErr : JudgeOutcome
  /-- the call succeeded but `json.Unmarshal` failed on the reply. -/
  | parseFail : JudgeOutcome
  /-- the call succeeded and the reply parsed to this array. -/
  | parsed (arr : List judgeRawEntry) : JudgeOutcome
  deriving DecidableEq, Repr

/-- The distinct error returns of `judgeCandidates`. -/
inductive JudgeErr where
  | noCandidates | generationFailed | nonJSON | noUsableScores
  deriving DecidableEq, Repr

/-- The comparison of the judge's `sort.Slice` call:
`out[i].Score > out[j].Score`. -/
def scoreGT (a b : scored) : Bool :=
  a.Score > b.Score

/-- The validation loop of `judgeCandidates`: keep entries whose index
references an existing candidate (`x.Idx >= 0 && x.Idx < len(cands)`),
drop the rest. -/
def validateEntries (n : Nat) (arr : List judgeRawEntry) : List scored :=
  arr.filterMap fun x =>
    if 0 ≤ x.idx ∧ x.idx < (n : Int) then some ⟨x.idx, x.score, x.notes⟩ else none

/-- Source `judgeCandidates` as a function of the candidate list and the
backend/parse outcome. -/
def judgeCandidates (cands : List Candidate) (o : JudgeOutcome) : Except JudgeErr (List scored) :=
  if cands = [] then .error .noCandidates
  else
    match o with
    | .genErr => .error .generationFailed
    | .parseFail => .error .nonJSON
    | .parsed arr =>
      let out := validateEntries cands.length arr
      if out = [] then .error .noUsableScores
      else .ok (sortBy scoreGT out)

/-! ## Selection policy (source `fastPick`, `shouldSkipJudgeInFastMode`) -/

/-- The loop of `fastPick` over `cands[1:]`: the running best is
replaced only by a candidate with more than one extra newline. -/
def fastPickLoop (best : Candidate) (bestNL : Nat) : List Candidate → Candidate
  | [] => best
  | c :: rest =>
    let nl := countNL c.text
    if nl > bestNL + 1 then fastPickLoop c nl rest else fastPickLoop best bestNL rest

/-- Source `fastPick`; it reads `cands[0]` unconditionally, so the empty
list (a Go panic) is modelled as `none`. -/
def fastPick : List Candidate → Option Candidate
  | [] => none
  | c :: rest => some (fastPickLoop c (countNL c.text) rest)

/-- Source `shouldSkipJudgeInFastMode`: fewer than two candidates, or
the two fastest answers' byte lengths differ by less than 350. -/
def shouldSkipJudgeInFastMode : List Candidate → Bool
  | c0 :: c1 :: _ =>
    let a : Int := byteLen c0.text
    let b : Int := byteLen c1.text
    (a - b).natAbs < 350
  | _ => true

/-! ## Streaming generation (source `ollamaGenerateStream`)

The streaming call scans newline-delimited JSON chunks
`{response, done}`; each non-empty `response` is appended to a builder
and forwarded to the `onDelta` sink, and the loop stops at `done`, at
end of input, or at a scan/decode failure.  Blank lines are skipped by
the source and carry no information, so the model's event list holds
only decoded chunks and the failure point.  The sink used by the
streaming handler (an NDJSON write) never errors in the model. -/

/-- One event of the chunk stream: a decoded chunk, or the point where
the scanner or the JSON decoder fails. -/
inductive StreamEv where
  | chunk (response : String) (done : Bool)
  | fail
  deriving DecidableEq, Repr

/-- The scan loop of `ollamaGenerateStream`: accumulates the fragments
handed to `onDelta` (in order) and the builder contents, returning
`none` on a scan/decode failure and the trimmed full text otherwise. -/
def ollamaGenerateStreamLoop : List StreamEv → List String → String → List String × Option String
  | [], ds, full => (ds, some (trimSpace full))
  | .fail :: _, ds, _ => (ds, none)
  | .chunk r d :: rest, ds, full =>
    let ds2 := if r = "" then ds else ds ++ [r]
    let full2 := if r = "" then full else full ++ r
    if d then (ds2, some (trimSpace full2)) else ollamaGenerateStreamLoop rest ds2 full2

/-- Source `ollamaGenerateStream` as a function of the chunk events:
the emitted fragments and the final result (`none` = error). -/
def ollamaGenerateStream (evs : List StreamEv) : List String × Option String :=
  ollamaGenerateStreamLoop evs [] ""

/-! ## NDJSON frames (source `streamMsg`) -/

/-- One NDJSON frame, tagged by its `Type` field. -/
inductive streamMsg where
  | status (text : String)
  | delta (text : String)
  | error (text : String)
  | meta (v : AnswerResponse)
  deriving DecidableEq, Repr

/-- The delta payloads of a frame sequence, in emission order. -/
def frameDeltas (frames : List streamMsg) : List String :=
  frames.filterMap fun f => match f with | .delta t => some t | _ => none

/-- The summary payloads of a frame sequence. -/
def frameMetas (frames : List streamMsg) : List AnswerResponse :=
  frames.filterMap fun f => match f with | .meta v => some v | _ => none

/-- The error payloads of a frame sequence. -/
def frameErrors (frames : List streamMsg) : List String :=
  frames.filterMap fun f => match f with | .error t => some t | _ => none

/-! ## Mode policy (handler preambles) -/

/-- Mode normalization: lower-cased trimmed mode, defaulting to `fast`
for anything other than `quality`. -/
def normMode (modeRaw : String) : String :=
  let mode := toLowerGo (trimSpace modeRaw)
  if mode = "quality" then mode else "fast"

/-- The per-mode backend registry. -/
def providersFor (mode : String) : List provider :=
  if mode = "quality" then
    [⟨"llama3.2", "llama3.2"⟩, ⟨"qwen2.5", "qwen2.5"⟩, ⟨"mistral", "mistral"⟩]
  else
    [⟨"llama3.2", "llama3.2"⟩, ⟨"qwen2.5", "qwen2.5"⟩]

/-- The per-mode cache TTL, in seconds (30 min for quality, 10 for fast). -/
def ttlFor (mode : String) : Nat :=
  if mode = "quality" then 30 * 60 else 10 * 60

/-- The per-mode pipeline deadline, in seconds (bounds the fan-out,
judge and synthesis calls; it does not otherwise appear in the pure
model, where a timed-out call is an erroring call). -/
def timeoutFor (mode : String) : Nat :=
  if mode = "quality" then 120 else 45

/-- The designated judge / synthesis backend. -/
def judgeModel : String :=
  "llama3.2"

/-- The Go pattern `merged, err := ollamaGenerate(...); if err == nil &&
TrimSpace(merged) != "" { final = merged }`: `synth` is `none` on error,
otherwise the raw response (which `ollamaGenerate` trims). -/
def mergeResult (final0 : String) (synth : Option String) : String :=
  match synth with
  | none => final0
  | some raw =>
    let merged := trimSpace raw
    if trimSpace merged = "" then final0 else merged

/-! ## Synchronous handler (source `handleAnswer`)

The handler is modelled from the point where the request body has been
decoded (transport and method checks are outside the embedding).  Its
inputs are the cache state, the current instant, the decoded request
fields, and an oracle holding the outcomes of the external calls it may
issue; its outputs are the HTTP outcome, the cache state afterwards,
and how many generation calls of each kind were issued (`genCalls`
counts the fan-out calls, one per registered provider). -/

/-- The observable HTTP outcome of `handleAnswer`. -/
inductive HOut where
  /-- HTTP 400, before any pipeline work. -/
  | badRequest (msg : String)
  /-- HTTP 502, zero candidates after fan-out. -/
  | badGateway (msg : String)
  /-- HTTP 200 with this body. -/
  | ok (resp : AnswerResponse)
  /-- an out-of-range slice access (a Go panic); proven unreachable. -/
  | crash
  deriving DecidableEq, Repr

/-- Outcomes of the external calls `handleAnswer` may issue. -/
structure SyncOracle where
  arrivals : List FanResult
  judge : JudgeOutcome
  synth : Option String
  deriving DecidableEq, Repr

/-- Result of one `handleAnswer` execution. -/
structure HResult where
  out : HOut
  cacheAfter : CacheMap
  genCalls : Nat
  judgeCalls : Nat
  synthCalls : Nat
  deriving DecidableEq

/-- Source `handleAnswer` (the non-streaming endpoint). -/
def handleAnswer (cache : CacheMap) (now : Nat) (promptRaw modeRaw : String)
    (o : SyncOracle) : HResult :=
  let prompt := trimSpace promptRaw
  if prompt = "" then ⟨.badRequest "prompt required", cache, 0, 0, 0⟩
  else
    let mode := normMode modeRaw
    let key := cacheKey prompt mode
    match cacheGet cache key now with
    | some v => ⟨.ok { v with cached := true }, cache, 0, 0, 0⟩
    | none =>
      let nGen := (providersFor mode).length
      let ttl := ttlFor mode
      match fanOut o.arrivals with
      | [] => ⟨.badGateway "no model responses", cache, nGen, 0, 0⟩
      | c0 :: rest =>
        let cands := c0 :: rest
        if rest = [] then
          let resp : AnswerResponse := ⟨c0.text, cands, false, mode⟩
          ⟨.ok resp, cacheSet cache key resp now ttl, nGen, 0, 0⟩
        else if mode = "fast" ∧ shouldSkipJudgeInFastMode cands then
          match fastPick cands with
          | none => ⟨.crash, cache, nGen, 0, 0⟩
          | some best =>
            let resp : AnswerResponse := ⟨best.text, cands, false, mode⟩
            ⟨.ok resp, cacheSet cache key resp now ttl, nGen, 0, 0⟩
        else
          match judgeCandidates cands o.judge with
          | .error _ =>
            match fastPick cands with
            | none => ⟨.crash, cache, nGen, 1, 0⟩
            | some best =>
              let resp : AnswerResponse := ⟨best.text, cands, false, mode⟩
              ⟨.ok resp, cacheSet cache key resp now ttl, nGen, 1, 0⟩
          | .ok scores =>
            match scores with
            | [] => ⟨.crash, cache, nGen, 1, 0⟩
            | s0 :: srest =>
              match cands.get? s0.Idx.toNat with
              | none => ⟨.crash, cache, nGen, 1, 0⟩
              | some cBest =>
                let top0 : Option (List Candidate) :=
                  match srest with
                  | [] => some [cBest]
                  | s1 :: _ =>
                    match cands.get? s1.Idx.toNat with
                    | none => none
                    | some c1 => some [cBest, c1]
                match top0 with
                | none => ⟨.crash, cache, nGen, 1, 0⟩
                | some _top =>
                  let final0 := cBest.text
                  if mode = "quality" then
                    let final := mergeResult final0 o.synth
                    let resp : AnswerResponse := ⟨final, cands, false, mode⟩
                    ⟨.ok resp, cacheSet cache key resp now ttl, nGen, 1, 1⟩
                  else if byteLen final0 < 500 then
                    let final := mergeResult final0 o.synth
                    let resp : AnswerResponse := ⟨final, cands, false, mode⟩
                    ⟨.ok resp, cacheSet cache key resp now ttl, nGen, 1, 1⟩
                  else
                    let resp : AnswerResponse := ⟨final0, cands, false, mode⟩
                    ⟨.ok resp, cacheSet cache key resp now ttl, nGen, 1, 0⟩

/-! ## Streaming handler (source `handleAnswerStream`)

Modelled like `handleAnswer`; the outputs additionally carry the emitted
NDJSON frame sequence.  The pre-stream rejections (method check, body
decode, empty prompt), which answer with a plain JSON error before any
frame is written, set `rejected` and emit no frames. -/

/-- Outcomes of the external calls `handleAnswerStream` may issue. -/
structure StreamOracle where
  arrivals : List FanResult
  judge : JudgeOutcome
  synthEvs : List StreamEv
  deriving DecidableEq, Repr

/-- Result of one `handleAnswerStream` execution. -/
structure SResult where
  frames : List streamMsg
  cacheAfter : CacheMap
  genCalls : Nat
  judgeCalls : Nat
  synthCalls : Nat
  crashed : Bool
  rejected : Bool
  deriving DecidableEq

/-- Source `handleAnswerStream` (the NDJSON streaming endpoint). -/
def handleAnswerStream (cache : CacheMap) (now : Nat) (promptRaw modeRaw : String)
    (o : StreamOracle) : SResult :=
  let prompt := trimSpace promptRaw
  if prompt = "" then ⟨[], cache, 0, 0, 0, false, true⟩
  else
    let mode := normMode modeRaw
    let key := cacheKey prompt mode
    match cacheGet cache key now with
    | some v =>
      ⟨[.status "cache hit", .delta v.final, .meta { v with cached := true }],
        cache, 0, 0, 0, false, false⟩
    | none =>
      let nGen := (providersFor mode).length
      let ttl := ttlFor mode
      match fanOut o.arrivals with
      | [] =>
        ⟨[.status "running models...", .error "no model responses"],
          cache, nGen, 0, 0, false, false⟩
      | c0 :: rest =>
        let cands := c0 :: rest
        if mode = "fast" ∧ 2 ≤ cands.length ∧ shouldSkipJudgeInFastMode cands then
          match fastPick cands with
          | none => ⟨[.status "running models..."], cache, nGen, 0, 0, true, false⟩
          | some best =>
            let resp : AnswerResponse := ⟨best.text, cands, false, mode⟩
            ⟨[.status "running models...", .status "fast path (no judge)",
                .delta best.text, .meta resp],
              cacheSet cache key resp now ttl, nGen, 0, 0, false, false⟩
        else
          match judgeCandidates cands o.judge with
          | .error _ =>
            match fastPick cands with
            | none =>
              ⟨[.status "running models...", .status "judging candidates..."],
                cache, nGen, 1, 0, true, false⟩
            | some best =>
              let resp : AnswerResponse := ⟨best.text, cands, false, mode⟩
              ⟨[.status "running models...", .status "judging candidates...",
                  .status "judge failed; using best guess", .delta best.text, .meta resp],
                cacheSet cache key resp now ttl, nGen, 1, 0, false, false⟩
          | .ok scores =>
            match scores with
            | [] =>
              ⟨[.status "running models...", .status "judging candidates..."],
                cache, nGen, 1, 0, true, false⟩
            | s0 :: srest =>
              match cands.get? s0.Idx.toNat with
              | none =>
                ⟨[.status "running models...", .status "judging candidates..."],
                  cache, nGen, 1, 0, true, false⟩
              | some cBest =>
                let top0 : Option (List Candidate) :=
                  match srest with
                  | [] => some [cBest]
                  | s1 :: _ =>
                    match cands.get? s1.Idx.toNat with
                    | none => none
                    | some c1 => some [cBest, c1]
                match top0 with
                | none =>
                  ⟨[.status "running models...", .status "judging candidates..."],
                    cache, nGen, 1, 0, true, false⟩
                | some _top =>
                  let pre : List streamMsg :=
                    [.status "running models...", .status "judging candidates...",
                      .status "synthesizing..."]
                  let stream := ollamaGenerateStream o.synthEvs
                  let ds := stream.1
                  let deltaFrames := ds.map streamMsg.delta
                  let failed :=
                    match stream.2 with
                    | none => true
                    | some merged => trimSpace merged = ""
                  if failed then
                    let best := cBest.text
                    let resp : AnswerResponse := ⟨best, cands, false, mode⟩
                    ⟨pre ++ deltaFrames ++
                        [.status "synth failed; fallback to best candidate",
                          .delta best, .meta resp],
                      cacheSet cache key resp now ttl, nGen, 1, 1, false, false⟩
                  else
                    let finalText := trimSpace (concatList ds)
                    let resp : AnswerResponse := ⟨finalText, cands, false, mode⟩
                    ⟨pre ++ deltaFrames ++ [.meta resp],
                      cacheSet cache key resp now ttl, nGen, 1, 1, false, false⟩

/-! ## Lemmas about the sort -/

theorem mem_insertBy {α : Type} (lt : α → α → Bool) (x : α) :
    ∀ (l : List α) (a : α), a ∈ insertBy lt x l ↔ a = x ∨ a ∈ l := by
  intro l
  induction l with
  | nil => simp [insertBy]
  | cons y ys ih =>
    intro a
    simp only [insertBy]
    split
    · simp [List.mem_cons]
    · simp only [List.mem_cons, ih a]
      tauto

theorem insertBy_perm {α : Type} (lt : α → α → Bool) (x : α) :
    ∀ l : List α, (insertBy lt x l).Perm (x :: l) := by
  intro l
  induction l with
  | nil => simp [insertBy]
  | cons y ys ih =>
    simp only [insertBy]
    split
    · exact List.Perm.refl _
    · exact (List.Perm.cons y ih).trans (List.Perm.swap x y ys)

theorem foldl_insertBy_perm {α : Type} (lt : α → α → Bool) :
    ∀ (l acc : List α),
      (List.foldl (fun acc x => insertBy lt x acc) acc l).Perm (acc ++ l) := by
  intro l
  induction l with
  | nil => intro acc; simp
  | cons x xs ih =>
    intro acc
    simp only [List.foldl_cons]
    exact ((ih (insertBy lt x acc)).trans
      (((insertBy_perm lt x acc).append_right xs).trans List.perm_middle.symm))

theorem sortBy_perm {α : Type} (lt : α → α → Bool) (l : List α) :
    (sortBy lt l).Perm l := by
  simpa [sortBy] using foldl_insertBy_perm lt l []

theorem mem_sortBy {α : Type} {lt : α → α → Bool} {l : List α} {a : α} :
    a ∈ sortBy lt l ↔ a ∈ l :=
  (sortBy_perm lt l).mem_iff

theorem sortBy_eq_nil_iff {α : Type} {lt : α → α → Bool} {l : List α} :
    sortBy lt l = [] ↔ l = [] := by
  constructor
  · intro h
    have := (sortBy_perm lt l).length_eq
    rw [h] at this
    exact List.length_eq_zero.mp this.symm
  · intro h; subst h; rfl

/-- The fold of `insertBy scoreGT` keeps the list sorted by score
descending. -/
theorem pairwise_insertBy (x : scored) :
    ∀ l : List scored, l.Pairwise (fun a b => b.Score ≤ a.Score) →
      (insertBy scoreGT x l).Pairwise (fun a b => b.Score ≤ a.Score) := by
  intro l
  induction l with
  | nil => simp [insertBy]
  | cons y ys ih =>
    intro h
    rw [List.pairwise_cons] at h
    simp only [insertBy]
    split
    · rename_i hlt
      simp only [scoreGT, decide_eq_true_eq] at hlt
      rw [List.pairwise_cons]
      constructor
      · intro z hz
        rcases List.mem_cons.mp hz with rfl | hz
        · omega
        · have := h.1 z hz
          omega
      · rw [List.pairwise_cons]
        exact h
    · rename_i hlt
      simp only [scoreGT, decide_eq_true_eq] at hlt
      rw [List.pairwise_cons]
      constructor
      · intro z hz
        rcases (mem_insertBy scoreGT x ys z).mp hz with rfl | hz
        · omega
        · exact h.1 z hz
      · exact ih h.2

theorem pairwise_sortBy (l : List scored) :
    (sortBy scoreGT l).Pairwise (fun a b => b.Score ≤ a.Score) := by
  suffices h : ∀ (l acc : List scored),
      acc.Pairwise (fun a b => b.Score ≤ a.Score) →
      (List.foldl (fun acc x => insertBy scoreGT x acc) acc l).Pairwise
        (fun a b => b.Score ≤ a.Score) by
    exact h l [] List.Pairwise.nil
  intro l
  induction l with
  | nil => intro acc h; simpa using h
  | cons x xs ih =>
    intro acc h
    simp only [List.foldl_cons]
    exact ih _ (pairwise_insertBy x acc h)

/-! ## Lemmas about the judge -/

theorem mem_validateEntries {n : Nat} {arr : List judgeRawEntry} {s : scored}
    (h : s ∈ validateEntries n arr) : 0 ≤ s.Idx ∧ s.Idx < (n : Int) := by
  rcases List.mem_filterMap.mp h with ⟨x, -, hx⟩
  by_cases hc : 0 ≤ x.idx ∧ x.idx < (n : Int)
  · rw [if_pos hc] at hx
    cases hx
    exact hc
  · rw [if_neg hc] at hx
    cases hx

/-- Characterization of a successful judge run: the backend replied with
a parseable array, at least one entry survived validation, and the
output is the score-sorted validated list. -/
theorem judgeCandidates_ok {cands : List Candidate} {o : JudgeOutcome} {out : List scored}
    (h : judgeCandidates cands o = .ok out) :
    cands ≠ [] ∧ ∃ arr, o = .parsed arr ∧
      validateEntries cands.length arr ≠ [] ∧
      out = sortBy scoreGT (validateEntries cands.length arr) := by
  unfold judgeCandidates at h
  split at h
  · cases h
  · rename_i hc
    constructor
    · exact hc
    · cases o with
      | genErr => cases h
      | parseFail => cases h
      | parsed arr =>
        refine ⟨arr, rfl, ?_⟩
        simp only at h
        split at h
        · cases h
        · rename_i hne
          cases h
          exact ⟨hne, rfl⟩

theorem judgeCandidates_ok_ne_nil {cands : List Candidate} {o : JudgeOutcome}
    {out : List scored} (h : judgeCandidates cands o = .ok out) : out ≠ [] := by
  rcases judgeCandidates_ok h with ⟨-, arr, -, hv, hout⟩
  subst hout
  exact fun hnil => hv (sortBy_eq_nil_iff.mp hnil)

theorem judgeCandidates_ok_mem {cands : List Candidate} {o : JudgeOutcome}
    {out : List scored} (h : judgeCandidates cands o = .ok out) :
    ∀ s ∈ out, 0 ≤ s.Idx ∧ s.Idx < (cands.length : Int) := by
  rcases judgeCandidates_ok h with ⟨-, arr, -, -, hout⟩
  subst hout
  intro s hs
  exact mem_validateEntries (mem_sortBy.mp hs)

/-- An in-range scored index can always be dereferenced. -/
theorem get?_of_scored {l : List Candidate} {i : Int} (h0 : 0 ≤ i)
    (h1 : i < (l.length : Int)) : ∃ c, l.get? i.toNat = some c := by
  have hlt : i.toNat < l.length := by omega
  exact ⟨l.get ⟨i.toNat, hlt⟩, List.get?_eq_some.mpr ⟨hlt, rfl⟩⟩

/-- Variant of `get?_of_scored` in `getElem?` form (the normal form
after `simp`). -/
theorem getElem?_of_scored {l : List Candidate} {i : Int} (h0 : 0 ≤ i)
    (h1 : i < (l.length : Int)) : ∃ c, l[i.toNat]? = some c := by
  rcases get?_of_scored h0 h1 with ⟨c, hc⟩
  exact ⟨c, by rw [← List.get?_eq_getElem?]; exact hc⟩

/-! ## Lemmas about the selection policy and the fan-out -/

theorem fastPickLoop_mem :
    ∀ (l : List Candidate) (b : Candidate) (n : Nat), fastPickLoop b n l ∈ b :: l := by
  intro l
  induction l with
  | nil => intro b n; simp [fastPickLoop]
  | cons c rest ih =>
    intro b n
    simp only [fastPickLoop]
    split
    · have := ih c (countNL c.text)
      simp only [List.mem_cons] at this ⊢
      tauto
    · have := ih b n
      simp only [List.mem_cons] at this ⊢
      tauto

theorem fastPick_cons (c : Candidate) (rest : List Candidate) :
    ∃ best, fastPick (c :: rest) = some best ∧ best ∈ c :: rest :=
  ⟨fastPickLoop c (countNL c.text) rest, rfl, fastPickLoop_mem rest c (countNL c.text)⟩

theorem fanOut_mem_text_ne {arrivals : List FanResult} {c : Candidate}
    (h : c ∈ fanOut arrivals) : c.text ≠ "" := by
  have h2 : c ∈ arrivals.filterMap fun r =>
      match r.response with
      | none => none
      | some raw =>
        let text := trimSpace raw
        if trimSpace text = "" then none else some ⟨r.providerName, text, r.latencyMs⟩ :=
    mem_sortBy.mp h
  rcases List.mem_filterMap.mp h2 with ⟨r, -, hr⟩
  match hres : r.response with
  | none => rw [hres] at hr; cases hr
  | some raw =>
    rw [hres] at hr
    simp only at hr
    split at hr
    · cases hr
    · rename_i hne
      cases hr
      intro habs
      have hraw : trimSpace raw = "" := habs
      rw [hraw] at hne
      exact hne rfl

/-! ## Lemmas about frame sequences -/

theorem frameDeltas_nil : frameDeltas [] = [] := rfl

theorem frameDeltas_append (a b : List streamMsg) :
    frameDeltas (a ++ b) = frameDeltas a ++ frameDeltas b := by
  simp [frameDeltas]

theorem frameDeltas_status (t : String) (fs : List streamMsg) :
    frameDeltas (.status t :: fs) = frameDeltas fs := rfl

theorem frameDeltas_delta (t : String) (fs : List streamMsg) :
    frameDeltas (.delta t :: fs) = t :: frameDeltas fs := rfl

theorem frameDeltas_meta (v : AnswerResponse) (fs : List streamMsg) :
    frameDeltas (.meta v :: fs) = frameDeltas fs := rfl

theorem frameDeltas_error (t : String) (fs : List streamMsg) :
    frameDeltas (.error t :: fs) = frameDeltas fs := rfl

theorem frameMetas_nil : frameMetas [] = [] := rfl

theorem frameMetas_status (t : String) (fs : List streamMsg) :
    frameMetas (.status t :: fs) = frameMetas fs := rfl

theorem frameMetas_delta (t : String) (fs : List streamMsg) :
    frameMetas (.delta t :: fs) = frameMetas fs := rfl

theorem frameMetas_error (t : String) (fs : List streamMsg) :
    frameMetas (.error t :: fs) = frameMetas fs := rfl

theorem frameMetas_meta (v : AnswerResponse) (fs : List streamMsg) :
    frameMetas (.meta v :: fs) = v :: frameMetas fs := rfl

theorem frameErrors_nil : frameErrors [] = [] := rfl

theorem frameErrors_status (t : String) (fs : List streamMsg) :
    frameErrors (.status t :: fs) = frameErrors fs := rfl

theorem frameErrors_delta (t : String) (fs : List streamMsg) :
    frameErrors (.delta t :: fs) = frameErrors fs := rfl

theorem frameErrors_error (t : String) (fs : List streamMsg) :
    frameErrors (.error t :: fs) = t :: frameErrors fs := rfl

theorem frameErrors_meta (v : AnswerResponse) (fs : List streamMsg) :
    frameErrors (.meta v :: fs) = frameErrors fs := rfl

theorem frameErrors_append (a b : List streamMsg) :
    frameErrors (a ++ b) = frameErrors a ++ frameErrors b := by
  simp [frameErrors]

theorem frameDeltas_map_delta (ds : List String) :
    frameDeltas (ds.map streamMsg.delta) = ds := by
  induction ds with
  | nil => rfl
  | cons d rest ih => simpa [frameDeltas] using ih

theorem frameMetas_append (a b : List streamMsg) :
    frameMetas (a ++ b) = frameMetas a ++ frameMetas b := by
  simp [frameMetas]

theorem frameMetas_map_delta (ds : List String) :
    frameMetas (ds.map streamMsg.delta) = [] := by
  induction ds with
  | nil => rfl
  | cons d rest ih => exact ih

theorem frameErrors_map_delta (ds : List String) :
    frameErrors (ds.map streamMsg.delta) = [] := by
  induction ds with
  | nil => rfl
  | cons d rest ih => exact ih

theorem concatList_append (a b : List String) :
    concatList (a ++ b) = concatList a ++ concatList b := by
  induction a with
  | nil => simp [concatList]
  | cons s rest ih => simp [concatList, ih, String.append_assoc]

theorem concatList_singleton (s : String) : concatList [s] = s := by
  simp [concatList]

/-! ## Auxiliary facts used by several claims -/

theorem validateEntries_zero (arr : List judgeRawEntry) : validateEntries 0 arr = [] := by
  rw [validateEntries, List.filterMap_eq_nil_iff]
  intro x hx
  rw [if_neg]
  omega

/-! ## Claim C9 -/

/-- C9: a cache `Get` on an absent key returns not-found, a `Get` after
the stored entry's expiry instant has passed returns not-found (never an
error: the return type has no error case), and a `Get` at or before the
expiry instant returns the stored value. -/
theorem claim_C9_expired_get_is_miss :
    ∀ (m : CacheMap) (key : String) (now : Nat),
      (lookupCache m key = none → cacheGet m key now = none) ∧
      (∀ it : cacheItem, lookupCache m key = some it → it.exp < now →
        cacheGet m key now = none) ∧
      (∀ it : cacheItem, lookupCache m key = some it → now ≤ it.exp →
        cacheGet m key now = some it.val) := by
  intro m key now
  refine ⟨?_, ?_, ?_⟩
  · intro h
    rw [cacheGet, h]
  · intro it h hexp
    rw [cacheGet, h]
    simp only [if_pos (by omega : now > it.exp)]
  · intro it h hexp
    rw [cacheGet, h]
    simp only [if_neg (by omega : ¬ now > it.exp)]

/-- Witness for C9: a concrete expired entry misses, a concrete absent
key misses. -/
theorem claim_C9_witness :
    cacheGet [("k", ⟨⟨"f", [], false, "fast"⟩, 3⟩)] "k" 5 = none ∧
    cacheGet [] "other" 0 = none :=
  ⟨(claim_C9_expired_get_is_miss [("k", ⟨⟨"f", [], false, "fast"⟩, 3⟩)] "k" 5).2.1
      ⟨⟨"f", [], false, "fast"⟩, 3⟩ (by decide) (by decide),
    (claim_C9_expired_get_is_miss [] "other" 0).1 (by decide)⟩

/-! ## Claim C5 -/

/-- C5: validated judge entries always carry an in-range candidate
index (out-of-range entries are dropped, not rejected); a successful
judge output is a permutation of the validated list, hence a subset of
the candidate indices; the judge succeeds exactly when at least one
valid entry remains after validation; and a reply that fails to parse
never yields success. -/
theorem claim_C5_validated_scores_in_range :
    ∀ (cands : List Candidate) (arr : List judgeRawEntry),
      (∀ s ∈ validateEntries cands.length arr,
        0 ≤ s.Idx ∧ s.Idx < (cands.length : Int)) ∧
      (∀ out, judgeCandidates cands (.parsed arr) = .ok out →
        out.Perm (validateEntries cands.length arr) ∧
        ∀ s ∈ out, 0 ≤ s.Idx ∧ s.Idx < (cands.length : Int)) ∧
      ((∃ out, judgeCandidates cands (.parsed arr) = .ok out) ↔
        validateEntries cands.length arr ≠ []) ∧
      (∀ out, judgeCandidates cands .parseFail ≠ .ok out) := by
  intro cands arr
  refine ⟨fun s hs => mem_validateEntries hs, ?_, ⟨?_, ?_⟩, ?_⟩
  · intro out h
    rcases judgeCandidates_ok h with ⟨-, arr2, harr, -, hout⟩
    cases harr
    subst hout
    exact ⟨sortBy_perm _ _, judgeCandidates_ok_mem h⟩
  · rintro ⟨out, h⟩
    rcases judgeCandidates_ok h with ⟨-, arr2, harr, hne, -⟩
    cases harr
    exact hne
  · intro hne
    have hcands : cands ≠ [] := by
      intro h
      subst h
      exact hne (validateEntries_zero arr)
    refine ⟨sortBy scoreGT (validateEntries cands.length arr), ?_⟩
    rw [judgeCandidates, if_neg hcands]
    simp only [if_neg hne]
  · intro out h
    rw [judgeCandidates] at h
    split at h
    · cases h
    · cases h

/-- Witness for C5: at a concrete candidate list and judge array with
one in-range and one out-of-range entry, the success output is a
permutation of the validated (dropped-to-in-range) list. -/
theorem claim_C5_witness :
    ([⟨0, 5, "x"⟩] : List scored).Perm
      (validateEntries 1 [⟨0, 5, "x"⟩, ⟨7, 2, "y"⟩]) :=
  (((claim_C5_validated_scores_in_range [⟨"p", "a", 1⟩] [⟨0, 5, "x"⟩, ⟨7, 2, "y"⟩]).2.1)
    [⟨0, 5, "x"⟩] (by decide)).1

/-! ## Claim C2 -/

/-- C2 (supporting theorem; see the audit notes for the stability bug):
every successful judge output is sorted descending by score under the
insertion-sort model of `sort.Slice` (exact for at most 12 entries), and
the fabricated scores [3, 9, 5] on candidates [A, B, C] rank as B, C, A. -/
theorem claim_C2_ranked_descending :
    (∀ (cands : List Candidate) (o : JudgeOutcome) (out : List scored),
      judgeCandidates cands o = .ok out →
      out.Pairwise (fun a b => b.Score ≤ a.Score)) ∧
    judgeCandidates [⟨"pA", "A", 1⟩, ⟨"pB", "B", 2⟩, ⟨"pC", "C", 3⟩]
        (.parsed [⟨0, 3, ""⟩, ⟨1, 9, ""⟩, ⟨2, 5, ""⟩]) =
      .ok [⟨1, 9, ""⟩, ⟨2, 5, ""⟩, ⟨0, 3, ""⟩] := by
  constructor
  · intro cands o out h
    rcases judgeCandidates_ok h with ⟨-, arr, -, -, hout⟩
    subst hout
    exact pairwise_sortBy _
  · decide

/-- Witness for C2: the descending-order conclusion evaluated at the
concrete [3, 9, 5] run. -/
theorem claim_C2_witness :
    ([⟨1, 9, ""⟩, ⟨2, 5, ""⟩, ⟨0, 3, ""⟩] : List scored).Pairwise
      (fun a b => b.Score ≤ a.Score) :=
  claim_C2_ranked_descending.1 [⟨"pA", "A", 1⟩, ⟨"pB", "B", 2⟩, ⟨"pC", "C", 3⟩]
    (.parsed [⟨0, 3, ""⟩, ⟨1, 9, ""⟩, ⟨2, 5, ""⟩])
    [⟨1, 9, ""⟩, ⟨2, 5, ""⟩, ⟨0, 3, ""⟩] (by decide)

/-! ## Claim C10 -/

/-- C10: no execution of either handler performs an out-of-range
access: a successful judge always returns in-range indices, so the
selections at ranks 1 and 2 are in bounds, and the heuristic pick is
only reached with a non-empty candidate list. -/
theorem claim_C10_no_out_of_bounds :
    ∀ (cache : CacheMap) (now : Nat) (promptRaw modeRaw : String)
      (o : SyncOracle) (so : StreamOracle),
      (handleAnswer cache now promptRaw modeRaw o).out ≠ .crash ∧
      (handleAnswerStream cache now promptRaw modeRaw so).crashed = false := by
  intro cache now promptRaw modeRaw o so
  constructor
  · simp only [handleAnswer]
    split
    · simp
    · split
      · simp
      · split
        · simp
        · rename_i c0 rest heq
          split
          · simp
          · split
            · split
              · rename_i hfp
                simp [fastPick] at hfp
              · simp
            · split
              · split
                · rename_i hfp
                  simp [fastPick] at hfp
                · simp
              · rename_i scores hj
                split
                · exact absurd rfl (judgeCandidates_ok_ne_nil hj)
                · rename_i s0 srest
                  split
                  · rename_i hget
                    have hb := judgeCandidates_ok_mem hj s0 (List.mem_cons_self _ _)
                    rcases get?_of_scored hb.1 hb.2 with ⟨c, hc⟩
                    rw [hc] at hget
                    cases hget
                  · rename_i cBest hget
                    split
                    · rename_i htop
                      split at htop
                      · cases htop
                      · rename_i s1 stl
                        split at htop
                        · rename_i hget1
                          have hb := judgeCandidates_ok_mem hj s1
                            (by simp [List.mem_cons])
                          rcases get?_of_scored hb.1 hb.2 with ⟨c, hc⟩
                          rw [hc] at hget1
                          cases hget1
                        · cases htop
                    · split
                      · simp
                      · split
                        · simp
                        · simp
  · simp only [handleAnswerStream]
    split
    · simp
    · split
      · simp
      · split
        · simp
        · rename_i c0 rest heq
          split
          · split
            · rename_i hfp
              simp [fastPick] at hfp
            · simp
          · split
            · split
              · rename_i hfp
                simp [fastPick] at hfp
              · simp
            · rename_i scores hj
              split
              · exact absurd rfl (judgeCandidates_ok_ne_nil hj)
              · rename_i s0 srest
                split
                · rename_i hget
                  have hb := judgeCandidates_ok_mem hj s0 (List.mem_cons_self _ _)
                  rcases get?_of_scored hb.1 hb.2 with ⟨c, hc⟩
                  rw [hc] at hget
                  cases hget
                · rename_i cBest hget
                  split
                  · rename_i htop
                    split at htop
                    · cases htop
                    · rename_i s1 stl
                      split at htop
                      · rename_i hget1
                        have hb := judgeCandidates_ok_mem hj s1
                          (by simp [List.mem_cons])
                        rcases get?_of_scored hb.1 hb.2 with ⟨c, hc⟩
                        rw [hc] at hget1
                        cases hget1
                      · cases htop
                  · split
                    · simp
                    · simp

/-! ## Claim C1 -/

/-- C1 counterexample: a streaming session in which the synthesis chunk
carries surrounding white space emits the delta `" hi "` but a summary
whose final answer is the trimmed `"hi"`, so the concatenation of the
delta payloads differs from `summary.final`. -/
theorem claim_C1_counterexample :
    let so : StreamOracle :=
      ⟨[⟨"llama3.2", some "ans", 5⟩], .parsed [⟨0, 5, ""⟩], [.chunk " hi " true]⟩
    let r := handleAnswerStream [] 0 "q" "quality" so
    frameMetas r.frames =
      [⟨"hi", [⟨"llama3.2", "ans", 5⟩], false, "quality"⟩] ∧
    frameDeltas r.frames = [" hi "] ∧
    concatList (frameDeltas r.frames) = " hi " ∧
    (" hi " : String) ≠ "hi" := by
  decide

/-- C1 amended: for every streaming session with a summary frame,
either the session took the successful-synthesis path and
`summary.final` is the white-space-trimmed concatenation of the delta
payloads, or (on the cache-hit, fast-shortcut, judge-failure and
synthesis-fallback paths) the concatenation of the delta payloads is
the fallback/final text preceded by the partial synthesis fragments —
in particular it ends with `summary.final`, and equals it exactly when
no fragment preceded the final delta. -/
theorem claim_C1_deltas_reconstruct_final :
    ∀ (cache : CacheMap) (now : Nat) (promptRaw modeRaw : String) (so : StreamOracle)
      (v : AnswerResponse),
      v ∈ frameMetas (handleAnswerStream cache now promptRaw modeRaw so).frames →
      v.final =
        trimSpace (concatList (frameDeltas (handleAnswerStream cache now promptRaw modeRaw so).frames)) ∨
      ∃ p, concatList (frameDeltas (handleAnswerStream cache now promptRaw modeRaw so).frames) =
        p ++ v.final := by
  intro cache now promptRaw modeRaw so v
  simp only [handleAnswerStream]
  split
  · intro h
    simp [frameMetas] at h
  · split
    · intro h
      simp only [frameMetas_status, frameMetas_delta, frameMetas_meta, frameMetas_nil,
        List.mem_singleton] at h
      subst h
      right
      refine ⟨"", ?_⟩
      simp only [frameDeltas_status, frameDeltas_delta, frameDeltas_meta, frameDeltas_nil]
      simp [concatList]
    · split
      · intro h
        simp only [frameMetas_status, frameMetas_error, frameMetas_nil] at h
        simp at h
      · rename_i c0 rest heq
        split
        · split
          · intro h
            simp [frameMetas] at h
          · intro h
            simp only [frameMetas_status, frameMetas_delta, frameMetas_meta, frameMetas_nil,
              List.mem_singleton] at h
            subst h
            right
            refine ⟨"", ?_⟩
            simp only [frameDeltas_status, frameDeltas_delta, frameDeltas_meta, frameDeltas_nil]
            simp [concatList]
        · split
          · split
            · intro h
              simp [frameMetas] at h
            · intro h
              simp only [frameMetas_status, frameMetas_delta, frameMetas_meta, frameMetas_nil,
                List.mem_singleton] at h
              subst h
              right
              refine ⟨"", ?_⟩
              simp only [frameDeltas_status, frameDeltas_delta, frameDeltas_meta, frameDeltas_nil]
              simp [concatList]
          · rename_i scores hj
            split
            · intro h
              simp [frameMetas] at h
            · rename_i s0 srest
              split
              · intro h
                simp [frameMetas] at h
              · rename_i cBest hget
                split
                · intro h
                  simp [frameMetas] at h
                · split
                  · intro h
                    simp only [frameMetas_append, frameMetas_status, frameMetas_delta,
                      frameMetas_meta, frameMetas_nil, frameMetas_map_delta,
                      List.nil_append, List.mem_singleton] at h
                    subst h
                    right
                    refine ⟨concatList (ollamaGenerateStream so.synthEvs).1, ?_⟩
                    simp only [frameDeltas_append, frameDeltas_status, frameDeltas_delta,
                      frameDeltas_meta, frameDeltas_nil, frameDeltas_map_delta,
                      List.append_nil, List.nil_append]
                    simp [concatList_append, concatList]
                  · intro h
                    simp only [frameMetas_append, frameMetas_status, frameMetas_delta,
                      frameMetas_meta, frameMetas_nil, frameMetas_map_delta,
                      List.nil_append, List.mem_singleton] at h
                    subst h
                    left
                    simp only [frameDeltas_append, frameDeltas_status, frameDeltas_delta,
                      frameDeltas_meta, frameDeltas_nil, frameDeltas_map_delta,
                      List.append_nil, List.nil_append]

/-- Witness for the amended C1: at a concrete successful synthesis run
the summary's final answer is the trimmed concatenation of the deltas. -/
theorem claim_C1_witness :
    (⟨"hi", [⟨"llama3.2", "ans", 5⟩], false, "quality"⟩ : AnswerResponse).final =
      trimSpace (concatList (frameDeltas
        (handleAnswerStream [] 0 "q" "quality"
          ⟨[⟨"llama3.2", some "ans", 5⟩], .parsed [⟨0, 5, ""⟩],
            [.chunk " hi " true]⟩).frames)) ∨
    ∃ p, concatList (frameDeltas
        (handleAnswerStream [] 0 "q" "quality"
          ⟨[⟨"llama3.2", some "ans", 5⟩], .parsed [⟨0, 5, ""⟩],
            [.chunk " hi " true]⟩).frames) =
      p ++ (⟨"hi", [⟨"llama3.2", "ans", 5⟩], false, "quality"⟩ : AnswerResponse).final :=
  claim_C1_deltas_reconstruct_final [] 0 "q" "quality"
    ⟨[⟨"llama3.2", some "ans", 5⟩], .parsed [⟨0, 5, ""⟩], [.chunk " hi " true]⟩
    ⟨"hi", [⟨"llama3.2", "ans", 5⟩], false, "quality"⟩ (by decide)

/-! ## Claim C3 -/

/-- C3 counterexample: a quality-mode request whose fan-out yields
exactly one candidate returns it directly — the judge and the
synthesizer are never invoked, refuting "run unconditionally in quality
mode, for any number of candidates". -/
theorem claim_C3_counterexample :
    let o : SyncOracle :=
      ⟨[⟨"llama3.2", some "ans", 5⟩], .parsed [⟨0, 5, ""⟩], some "merged"⟩
    let r := handleAnswer [] 0 "hi" "quality" o
    r.judgeCalls = 0 ∧ r.synthCalls = 0 ∧
    r.out = .ok ⟨"ans", [⟨"llama3.2", "ans", 5⟩], false, "quality"⟩ := by
  decide

/-- C3 amended: in quality mode, on the synchronous endpoint the judge
is always invoked (exactly once) when at least two candidates exist and
the synthesizer is invoked exactly when the judge succeeds, while a
single candidate is returned directly with neither step; on the
streaming endpoint the judge is always invoked for any non-empty
candidate list — a single candidate included — and the synthesizer is
invoked exactly when the judge succeeds. -/
theorem claim_C3_quality_judge_and_synthesis :
    ∀ (cache : CacheMap) (now : Nat) (promptRaw modeRaw : String) (o : SyncOracle)
      (so : StreamOracle) (c0 c1 : Candidate) (rest rest1 : List Candidate),
      trimSpace promptRaw ≠ "" →
      normMode modeRaw = "quality" →
      cacheGet cache (cacheKey (trimSpace promptRaw) "quality") now = none →
      (fanOut o.arrivals = [c0] →
        (handleAnswer cache now promptRaw modeRaw o).judgeCalls = 0 ∧
        (handleAnswer cache now promptRaw modeRaw o).synthCalls = 0) ∧
      (fanOut o.arrivals = c0 :: c1 :: rest →
        (handleAnswer cache now promptRaw modeRaw o).judgeCalls = 1 ∧
        (∀ scores, judgeCandidates (c0 :: c1 :: rest) o.judge = .ok scores →
          (handleAnswer cache now promptRaw modeRaw o).synthCalls = 1) ∧
        (∀ e, judgeCandidates (c0 :: c1 :: rest) o.judge = .error e →
          (handleAnswer cache now promptRaw modeRaw o).synthCalls = 0)) ∧
      (fanOut so.arrivals = c0 :: rest1 →
        (handleAnswerStream cache now promptRaw modeRaw so).judgeCalls = 1 ∧
        (∀ scores, judgeCandidates (c0 :: rest1) so.judge = .ok scores →
          (handleAnswerStream cache now promptRaw modeRaw so).synthCalls = 1) ∧
        (∀ e, judgeCandidates (c0 :: rest1) so.judge = .error e →
          (handleAnswerStream cache now promptRaw modeRaw so).synthCalls = 0)) := by
  intro cache now promptRaw modeRaw o so c0 c1 rest rest1 hp hm hc
  have hqf : ("quality" : String) ≠ "fast" := by decide
  refine ⟨?_, ?_, ?_⟩
  · intro hf
    rw [show (handleAnswer cache now promptRaw modeRaw o) =
        ⟨.ok ⟨c0.text, [c0], false, "quality"⟩,
          cacheSet cache (cacheKey (trimSpace promptRaw) "quality")
            ⟨c0.text, [c0], false, "quality"⟩ now (ttlFor "quality"),
          (providersFor "quality").length, 0, 0⟩ from ?_]
    · exact ⟨rfl, rfl⟩
    · simp [handleAnswer, hm, hc, hf, hp]
  · intro hf
    have hskip : ¬(("quality" : String) = "fast" ∧
        shouldSkipJudgeInFastMode (c0 :: c1 :: rest) = true) := by
      intro h
      exact hqf h.1
    refine ⟨?_, ?_, ?_⟩
    · cases hj : judgeCandidates (c0 :: c1 :: rest) o.judge with
      | error e =>
        simp [handleAnswer, hm, hc, hf, hp, hj, hskip, fastPick]
      | ok scores =>
        cases scores with
        | nil => exact absurd rfl (judgeCandidates_ok_ne_nil hj)
        | cons s0 srest =>
          have hb0 := judgeCandidates_ok_mem hj s0 (List.mem_cons_self _ _)
          rcases getElem?_of_scored hb0.1 hb0.2 with ⟨cB, hcB⟩
          cases srest with
          | nil =>
            simp [handleAnswer, hm, hc, hf, hp, hj, hskip, hcB]
          | cons s1 stl =>
            have hb1 := judgeCandidates_ok_mem hj s1 (by simp)
            rcases getElem?_of_scored hb1.1 hb1.2 with ⟨cB1, hcB1⟩
            simp [handleAnswer, hm, hc, hf, hp, hj, hskip, hcB, hcB1]
    · intro scores hj
      cases scores with
      | nil => exact absurd rfl (judgeCandidates_ok_ne_nil hj)
      | cons s0 srest =>
        have hb0 := judgeCandidates_ok_mem hj s0 (List.mem_cons_self _ _)
        rcases getElem?_of_scored hb0.1 hb0.2 with ⟨cB, hcB⟩
        cases srest with
        | nil =>
          simp [handleAnswer, hm, hc, hf, hp, hj, hskip, hcB]
        | cons s1 stl =>
          have hb1 := judgeCandidates_ok_mem hj s1 (by simp)
          rcases getElem?_of_scored hb1.1 hb1.2 with ⟨cB1, hcB1⟩
          simp [handleAnswer, hm, hc, hf, hp, hj, hskip, hcB, hcB1]
    · intro e hj
      simp [handleAnswer, hm, hc, hf, hp, hj, hskip, fastPick]
  · intro hf
    refine ⟨?_, ?_, ?_⟩
    · cases hj : judgeCandidates (c0 :: rest1) so.judge with
      | error e =>
        simp [handleAnswerStream, hm, hc, hf, hp, hj, fastPick]
      | ok scores =>
        cases scores with
        | nil => exact absurd rfl (judgeCandidates_ok_ne_nil hj)
        | cons s0 srest =>
          have hb0 := judgeCandidates_ok_mem hj s0 (List.mem_cons_self _ _)
          rcases getElem?_of_scored hb0.1 hb0.2 with ⟨cB, hcB⟩
          cases srest with
          | nil =>
            simp [handleAnswerStream, hm, hc, hf, hp, hj, hcB, apply_ite]
          | cons s1 stl =>
            have hb1 := judgeCandidates_ok_mem hj s1 (by simp)
            rcases getElem?_of_scored hb1.1 hb1.2 with ⟨cB1, hcB1⟩
            simp [handleAnswerStream, hm, hc, hf, hp, hj, hcB, hcB1, apply_ite]
    · intro scores hj
      cases scores with
      | nil => exact absurd rfl (judgeCandidates_ok_ne_nil hj)
      | cons s0 srest =>
        have hb0 := judgeCandidates_ok_mem hj s0 (List.mem_cons_self _ _)
        rcases getElem?_of_scored hb0.1 hb0.2 with ⟨cB, hcB⟩
        cases srest with
        | nil =>
          simp [handleAnswerStream, hm, hc, hf, hp, hj, hcB, apply_ite]
        | cons s1 stl =>
          have hb1 := judgeCandidates_ok_mem hj s1 (by simp)
          rcases getElem?_of_scored hb1.1 hb1.2 with ⟨cB1, hcB1⟩
          simp [handleAnswerStream, hm, hc, hf, hp, hj, hcB, hcB1, apply_ite]
    · intro e hj
      simp [handleAnswerStream, hm, hc, hf, hp, hj, fastPick]

/-- Witness for the amended C3: a concrete quality run with two
candidates and a successful judge issues one judge call and one
synthesis call on the synchronous endpoint, and a concrete quality run
with a single candidate does the same on the streaming endpoint. -/
theorem claim_C3_witness :
    (handleAnswer [] 0 "hi" "quality"
      ⟨[⟨"llama3.2", some "a1", 5⟩, ⟨"qwen2.5", some "a2", 7⟩],
        .parsed [⟨0, 3, ""⟩, ⟨1, 8, ""⟩], some "m"⟩).judgeCalls = 1 ∧
    (handleAnswer [] 0 "hi" "quality"
      ⟨[⟨"llama3.2", some "a1", 5⟩, ⟨"qwen2.5", some "a2", 7⟩],
        .parsed [⟨0, 3, ""⟩, ⟨1, 8, ""⟩], some "m"⟩).synthCalls = 1 ∧
    (handleAnswerStream [] 0 "hi" "quality"
      ⟨[⟨"llama3.2", some "a1", 5⟩], .parsed [⟨0, 5, ""⟩],
        [.chunk "x" true]⟩).judgeCalls = 1 ∧
    (handleAnswerStream [] 0 "hi" "quality"
      ⟨[⟨"llama3.2", some "a1", 5⟩], .parsed [⟨0, 5, ""⟩],
        [.chunk "x" true]⟩).synthCalls = 1 := by
  have h := claim_C3_quality_judge_and_synthesis [] 0 "hi" "quality"
    ⟨[⟨"llama3.2", some "a1", 5⟩, ⟨"qwen2.5", some "a2", 7⟩],
      .parsed [⟨0, 3, ""⟩, ⟨1, 8, ""⟩], some "m"⟩
    ⟨[⟨"llama3.2", some "a1", 5⟩], .parsed [⟨0, 5, ""⟩], [.chunk "x" true]⟩
    ⟨"llama3.2", "a1", 5⟩ ⟨"qwen2.5", "a2", 7⟩ [] []
    (by decide) (by decide) (by decide)
  have hsync := h.2.1 (by decide)
  have hstream := h.2.2 (by decide)
  exact ⟨hsync.1, hsync.2.1 [⟨1, 8, ""⟩, ⟨0, 3, ""⟩] (by decide),
    hstream.1, hstream.2.1 [⟨0, 5, ""⟩] (by decide)⟩

/-! ## Claim C4 -/

/-- C4 counterexample: on the streaming endpoint the fast shortcut
additionally requires at least two candidates, so a fast-mode request
whose fan-out yields exactly one candidate (fewer than two) does invoke
the judge — and, the judge succeeding, the synthesizer — refuting "the
judge and synthesizer are never invoked". -/
theorem claim_C4_counterexample :
    let so : StreamOracle :=
      ⟨[⟨"llama3.2", some "ans", 5⟩], .parsed [⟨0, 5, ""⟩], [.chunk "ok" true]⟩
    let r := handleAnswerStream [] 0 "hi" "fast" so
    fanOut so.arrivals = [⟨"llama3.2", "ans", 5⟩] ∧
    r.judgeCalls = 1 ∧ r.synthCalls = 1 := by
  decide

/-- C4 amended: on the synchronous endpoint the claim holds as stated:
with a single candidate, or with the two fastest candidates' byte
lengths differing by less than 350, the judge and synthesizer are never
invoked and the final answer is the heuristic pick; with a difference
of 350 or more exactly one judge call is made.  On the streaming
endpoint the same holds for two or more candidates, but a single-
candidate fast request goes through the judge instead of the shortcut. -/
theorem claim_C4_fast_mode_shortcut :
    ∀ (cache : CacheMap) (now : Nat) (promptRaw modeRaw : String) (o : SyncOracle)
      (so : StreamOracle) (c0 c1 : Candidate) (rest : List Candidate),
      trimSpace promptRaw ≠ "" →
      normMode modeRaw = "fast" →
      cacheGet cache (cacheKey (trimSpace promptRaw) "fast") now = none →
      (fanOut o.arrivals = [c0] →
        (handleAnswer cache now promptRaw modeRaw o).judgeCalls = 0 ∧
        (handleAnswer cache now promptRaw modeRaw o).synthCalls = 0 ∧
        (handleAnswer cache now promptRaw modeRaw o).out =
          .ok ⟨c0.text, [c0], false, "fast"⟩ ∧
        fastPick [c0] = some c0) ∧
      (fanOut o.arrivals = c0 :: c1 :: rest →
        ((byteLen c0.text : Int) - (byteLen c1.text : Int)).natAbs < 350 →
        ∃ best, fastPick (c0 :: c1 :: rest) = some best ∧
          (handleAnswer cache now promptRaw modeRaw o).judgeCalls = 0 ∧
          (handleAnswer cache now promptRaw modeRaw o).synthCalls = 0 ∧
          (handleAnswer cache now promptRaw modeRaw o).out =
            .ok ⟨best.text, c0 :: c1 :: rest, false, "fast"⟩) ∧
      (fanOut so.arrivals = c0 :: c1 :: rest →
        ((byteLen c0.text : Int) - (byteLen c1.text : Int)).natAbs < 350 →
        (handleAnswerStream cache now promptRaw modeRaw so).judgeCalls = 0 ∧
        (handleAnswerStream cache now promptRaw modeRaw so).synthCalls = 0) ∧
      (fanOut o.arrivals = c0 :: c1 :: rest →
        350 ≤ ((byteLen c0.text : Int) - (byteLen c1.text : Int)).natAbs →
        (handleAnswer cache now promptRaw modeRaw o).judgeCalls = 1) ∧
      (fanOut so.arrivals = c0 :: c1 :: rest →
        350 ≤ ((byteLen c0.text : Int) - (byteLen c1.text : Int)).natAbs →
        (handleAnswerStream cache now promptRaw modeRaw so).judgeCalls = 1) := by
  intro cache now promptRaw modeRaw o so c0 c1 rest hp hm hc
  refine ⟨?_, ?_, ?_, ?_, ?_⟩
  · intro hf
    refine ⟨?_, ?_, ?_, rfl⟩ <;>
      simp [handleAnswer, hm, hc, hf, hp, fastPick, fastPickLoop]
  · intro hf hdiff
    have hskip : shouldSkipJudgeInFastMode (c0 :: c1 :: rest) = true := by
      simp only [shouldSkipJudgeInFastMode, decide_eq_true_eq]
      exact hdiff
    refine ⟨fastPickLoop c0 (countNL c0.text) (c1 :: rest), rfl, ?_, ?_, ?_⟩ <;>
      simp [handleAnswer, hm, hc, hf, hp, hskip, fastPick]
  · intro hf hdiff
    have hskip : shouldSkipJudgeInFastMode (c0 :: c1 :: rest) = true := by
      simp only [shouldSkipJudgeInFastMode, decide_eq_true_eq]
      exact hdiff
    constructor <;>
      simp [handleAnswerStream, hm, hc, hf, hp, hskip, fastPick]
  · intro hf hdiff
    have hskip : shouldSkipJudgeInFastMode (c0 :: c1 :: rest) = false := by
      simp only [shouldSkipJudgeInFastMode, decide_eq_false_iff_not]
      omega
    cases hj : judgeCandidates (c0 :: c1 :: rest) o.judge with
    | error e =>
      simp [handleAnswer, hm, hc, hf, hp, hj, hskip, fastPick]
    | ok scores =>
      cases scores with
      | nil => exact absurd rfl (judgeCandidates_ok_ne_nil hj)
      | cons s0 srest =>
        have hb0 := judgeCandidates_ok_mem hj s0 (List.mem_cons_self _ _)
        rcases getElem?_of_scored hb0.1 hb0.2 with ⟨cB, hcB⟩
        cases srest with
        | nil =>
          simp [handleAnswer, hm, hc, hf, hp, hj, hskip, hcB, apply_ite]
        | cons s1 stl =>
          have hb1 := judgeCandidates_ok_mem hj s1 (by simp)
          rcases getElem?_of_scored hb1.1 hb1.2 with ⟨cB1, hcB1⟩
          simp [handleAnswer, hm, hc, hf, hp, hj, hskip, hcB, hcB1, apply_ite]
  · intro hf hdiff
    have hskip : shouldSkipJudgeInFastMode (c0 :: c1 :: rest) = false := by
      simp only [shouldSkipJudgeInFastMode, decide_eq_false_iff_not]
      omega
    cases hj : judgeCandidates (c0 :: c1 :: rest) so.judge with
    | error e =>
      simp [handleAnswerStream, hm, hc, hf, hp, hj, hskip, fastPick]
    | ok scores =>
      cases scores with
      | nil => exact absurd rfl (judgeCandidates_ok_ne_nil hj)
      | cons s0 srest =>
        have hb0 := judgeCandidates_ok_mem hj s0 (List.mem_cons_self _ _)
        rcases getElem?_of_scored hb0.1 hb0.2 with ⟨cB, hcB⟩
        cases srest with
        | nil =>
          simp [handleAnswerStream, hm, hc, hf, hp, hj, hskip, hcB, apply_ite]
        | cons s1 stl =>
          have hb1 := judgeCandidates_ok_mem hj s1 (by simp)
          rcases getElem?_of_scored hb1.1 hb1.2 with ⟨cB1, hcB1⟩
          simp [handleAnswerStream, hm, hc, hf, hp, hj, hskip, hcB, hcB1, apply_ite]

/-- Witness for the amended C4: candidates whose byte lengths differ by
1 (below 350) take the shortcut with zero judge calls, and candidates
whose byte lengths differ by 359 (at least 350) issue exactly one judge
call, on both endpoints. -/
theorem claim_C4_witness :
    (handleAnswer [] 0 "hi" "fast"
      ⟨[⟨"llama3.2", some "aaa", 5⟩, ⟨"qwen2.5", some "aaaa", 7⟩],
        .genErr, none⟩).judgeCalls = 0 ∧
    (handleAnswerStream [] 0 "hi" "fast"
      ⟨[⟨"llama3.2", some (String.mk (List.replicate 90 (Char.ofNat 0x1D11E))), 5⟩,
          ⟨"qwen2.5", some "b", 7⟩],
        .parsed [⟨0, 5, ""⟩], [.chunk "ok" true]⟩).judgeCalls = 1 := by
  have h1 := claim_C4_fast_mode_shortcut [] 0 "hi" "fast"
    ⟨[⟨"llama3.2", some "aaa", 5⟩, ⟨"qwen2.5", some "aaaa", 7⟩], .genErr, none⟩
    ⟨[⟨"llama3.2", some (String.mk (List.replicate 90 (Char.ofNat 0x1D11E))), 5⟩,
        ⟨"qwen2.5", some "b", 7⟩],
      .parsed [⟨0, 5, ""⟩], [.chunk "ok" true]⟩
    ⟨"llama3.2", "aaa", 5⟩ ⟨"qwen2.5", "aaaa", 7⟩ []
    (by decide) (by decide) (by decide)
  have h2 := claim_C4_fast_mode_shortcut [] 0 "hi" "fast"
    ⟨[⟨"llama3.2", some "aaa", 5⟩, ⟨"qwen2.5", some "aaaa", 7⟩], .genErr, none⟩
    ⟨[⟨"llama3.2", some (String.mk (List.replicate 90 (Char.ofNat 0x1D11E))), 5⟩,
        ⟨"qwen2.5", some "b", 7⟩],
      .parsed [⟨0, 5, ""⟩], [.chunk "ok" true]⟩
    ⟨"llama3.2", String.mk (List.replicate 90 (Char.ofNat 0x1D11E)), 5⟩
    ⟨"qwen2.5", "b", 7⟩ []
    (by decide) (by decide) (by decide)
  constructor
  · rcases (h1.2.1 (by decide) (by decide)) with ⟨best, -, hj0, -, -⟩
    exact hj0
  · exact h2.2.2.2.2 (by decide) (by decide)

/-! ## Claim C7 -/

/-- C7: whenever the judge is reached and fails — backend error,
unparsable reply, or no usable scores — both endpoints still answer
successfully with the heuristic pick's text, which is non-empty; no
error is surfaced, and the judge is called exactly once (no retry).
On the synchronous endpoint the judge is reached with two or more
candidates when the fast shortcut does not fire; on the streaming
endpoint additionally a single-candidate request reaches the judge
(there is no single-candidate early return there), and a judge failure
is equally soft: the lone candidate is the heuristic pick. -/
theorem claim_C7_judge_failure_is_soft :
    ∀ (cache : CacheMap) (now : Nat) (promptRaw modeRaw : String) (o : SyncOracle)
      (so : StreamOracle) (c0 c1 : Candidate) (rest : List Candidate)
      (e es e1 : JudgeErr),
      trimSpace promptRaw ≠ "" →
      cacheGet cache (cacheKey (trimSpace promptRaw) (normMode modeRaw)) now = none →
      (fanOut o.arrivals = c0 :: c1 :: rest →
        (normMode modeRaw = "quality" ∨
          shouldSkipJudgeInFastMode (c0 :: c1 :: rest) = false) →
        judgeCandidates (c0 :: c1 :: rest) o.judge = .error e →
        ∃ best, fastPick (c0 :: c1 :: rest) = some best ∧ best.text ≠ "" ∧
          (handleAnswer cache now promptRaw modeRaw o).out =
            .ok ⟨best.text, c0 :: c1 :: rest, false, normMode modeRaw⟩ ∧
          (handleAnswer cache now promptRaw modeRaw o).judgeCalls = 1 ∧
          (handleAnswer cache now promptRaw modeRaw o).synthCalls = 0) ∧
      (fanOut so.arrivals = c0 :: c1 :: rest →
        (normMode modeRaw = "quality" ∨
          shouldSkipJudgeInFastMode (c0 :: c1 :: rest) = false) →
        judgeCandidates (c0 :: c1 :: rest) so.judge = .error es →
        ∃ best, fastPick (c0 :: c1 :: rest) = some best ∧ best.text ≠ "" ∧
          frameErrors (handleAnswerStream cache now promptRaw modeRaw so).frames = [] ∧
          frameMetas (handleAnswerStream cache now promptRaw modeRaw so).frames =
            [⟨best.text, c0 :: c1 :: rest, false, normMode modeRaw⟩] ∧
          frameDeltas (handleAnswerStream cache now promptRaw modeRaw so).frames =
            [best.text] ∧
          (handleAnswerStream cache now promptRaw modeRaw so).judgeCalls = 1) ∧
      (fanOut so.arrivals = [c0] →
        judgeCandidates [c0] so.judge = .error e1 →
        fastPick [c0] = some c0 ∧ c0.text ≠ "" ∧
        frameErrors (handleAnswerStream cache now promptRaw modeRaw so).frames = [] ∧
        frameMetas (handleAnswerStream cache now promptRaw modeRaw so).frames =
          [⟨c0.text, [c0], false, normMode modeRaw⟩] ∧
        frameDeltas (handleAnswerStream cache now promptRaw modeRaw so).frames =
          [c0.text] ∧
        (handleAnswerStream cache now promptRaw modeRaw so).judgeCalls = 1) := by
  intro cache now promptRaw modeRaw o so c0 c1 rest e es e1 hp hc
  refine ⟨?_, ?_, ?_⟩
  · intro hf hmode hj
    have hns : ¬(normMode modeRaw = "fast" ∧
        shouldSkipJudgeInFastMode (c0 :: c1 :: rest) = true) := by
      rcases hmode with hm | hsk
      · rw [hm]
        rintro ⟨h1, -⟩
        exact absurd h1 (by decide)
      · rintro ⟨-, h2⟩
        rw [hsk] at h2
        cases h2
    refine ⟨fastPickLoop c0 (countNL c0.text) (c1 :: rest), rfl, ?_, ?_, ?_, ?_⟩
    · exact fanOut_mem_text_ne (by rw [hf]; exact fastPickLoop_mem _ _ _)
    · simp [handleAnswer, hp, hc, hf, hj, hns, fastPick]
    · simp [handleAnswer, hp, hc, hf, hj, hns, fastPick]
    · simp [handleAnswer, hp, hc, hf, hj, hns, fastPick]
  · intro hf hmode hj
    have hns : ¬(normMode modeRaw = "fast" ∧
        shouldSkipJudgeInFastMode (c0 :: c1 :: rest) = true) := by
      rcases hmode with hm | hsk
      · rw [hm]
        rintro ⟨h1, -⟩
        exact absurd h1 (by decide)
      · rintro ⟨-, h2⟩
        rw [hsk] at h2
        cases h2
    have hnss : ¬(normMode modeRaw = "fast" ∧ 2 ≤ (c0 :: c1 :: rest).length ∧
        shouldSkipJudgeInFastMode (c0 :: c1 :: rest) = true) := by
      rintro ⟨h1, -, h3⟩
      exact hns ⟨h1, h3⟩
    refine ⟨fastPickLoop c0 (countNL c0.text) (c1 :: rest), rfl, ?_, ?_, ?_, ?_, ?_⟩
    · exact fanOut_mem_text_ne (by rw [hf]; exact fastPickLoop_mem _ _ _)
    · simp [handleAnswerStream, hp, hc, hf, hj, hnss, hns, fastPick,
        frameErrors_status, frameErrors_delta, frameErrors_meta, frameErrors_nil]
    · simp [handleAnswerStream, hp, hc, hf, hj, hnss, hns, fastPick,
        frameMetas_status, frameMetas_delta, frameMetas_meta, frameMetas_nil]
    · simp [handleAnswerStream, hp, hc, hf, hj, hnss, hns, fastPick,
        frameDeltas_status, frameDeltas_delta, frameDeltas_meta, frameDeltas_nil]
    · simp [handleAnswerStream, hp, hc, hf, hj, hnss, hns, fastPick]
  · intro hf hj
    refine ⟨rfl, ?_, ?_, ?_, ?_, ?_⟩
    · exact fanOut_mem_text_ne (by rw [hf]; simp)
    · simp [handleAnswerStream, hp, hc, hf, hj, fastPick, fastPickLoop,
        frameErrors_status, frameErrors_delta, frameErrors_meta, frameErrors_nil]
    · simp [handleAnswerStream, hp, hc, hf, hj, fastPick, fastPickLoop,
        frameMetas_status, frameMetas_delta, frameMetas_meta, frameMetas_nil]
    · simp [handleAnswerStream, hp, hc, hf, hj, fastPick, fastPickLoop,
        frameDeltas_status, frameDeltas_delta, frameDeltas_meta, frameDeltas_nil]
    · simp [handleAnswerStream, hp, hc, hf, hj, fastPick, fastPickLoop]

/-- Witness for C7: a concrete quality run whose judge backend errors
answers 200 with the heuristic pick on both endpoints, and a concrete
fast-mode streaming run with a single candidate whose judge reply fails
to parse still emits a summary carrying that candidate after exactly
one judge call. -/
theorem claim_C7_witness :
    (handleAnswer [] 0 "hi" "quality"
      ⟨[⟨"llama3.2", some "a1", 5⟩, ⟨"qwen2.5", some "a2", 7⟩], .genErr, some "m"⟩).out =
      .ok ⟨"a1", [⟨"llama3.2", "a1", 5⟩, ⟨"qwen2.5", "a2", 7⟩], false, "quality"⟩ ∧
    (handleAnswer [] 0 "hi" "quality"
      ⟨[⟨"llama3.2", some "a1", 5⟩, ⟨"qwen2.5", some "a2", 7⟩], .genErr, some "m"⟩).judgeCalls = 1 ∧
    frameMetas (handleAnswerStream [] 0 "hi" "quality"
      ⟨[⟨"llama3.2", some "a1", 5⟩, ⟨"qwen2.5", some "a2", 7⟩], .genErr, [.chunk "x" true]⟩).frames =
      [⟨"a1", [⟨"llama3.2", "a1", 5⟩, ⟨"qwen2.5", "a2", 7⟩], false, "quality"⟩] ∧
    frameMetas (handleAnswerStream [] 0 "hi" "fast"
      ⟨[⟨"llama3.2", some "solo", 3⟩], .parseFail, [.chunk "x" true]⟩).frames =
      [⟨"solo", [⟨"llama3.2", "solo", 3⟩], false, "fast"⟩] ∧
    (handleAnswerStream [] 0 "hi" "fast"
      ⟨[⟨"llama3.2", some "solo", 3⟩], .parseFail, [.chunk "x" true]⟩).judgeCalls = 1 := by
  have h := claim_C7_judge_failure_is_soft [] 0 "hi" "quality"
    ⟨[⟨"llama3.2", some "a1", 5⟩, ⟨"qwen2.5", some "a2", 7⟩], .genErr, some "m"⟩
    ⟨[⟨"llama3.2", some "a1", 5⟩, ⟨"qwen2.5", some "a2", 7⟩], .genErr, [.chunk "x" true]⟩
    ⟨"llama3.2", "a1", 5⟩ ⟨"qwen2.5", "a2", 7⟩ []
    JudgeErr.generationFailed JudgeErr.generationFailed JudgeErr.nonJSON
    (by decide) (by decide)
  have hsolo := claim_C7_judge_failure_is_soft [] 0 "hi" "fast"
    ⟨[⟨"llama3.2", some "a1", 5⟩, ⟨"qwen2.5", some "a2", 7⟩], .genErr, some "m"⟩
    ⟨[⟨"llama3.2", some "solo", 3⟩], .parseFail, [.chunk "x" true]⟩
    ⟨"llama3.2", "solo", 3⟩ ⟨"qwen2.5", "a2", 7⟩ []
    JudgeErr.generationFailed JudgeErr.generationFailed JudgeErr.nonJSON
    (by decide) (by decide)
  rcases h.1 (by decide) (Or.inl (by decide)) (by decide) with ⟨best, hbest, -, hout, hjc, -⟩
  rcases h.2.1 (by decide) (Or.inl (by decide)) (by decide) with
    ⟨best2, hbest2, -, -, hmetas, -, -⟩
  rcases hsolo.2.2 (by decide) (by decide) with ⟨-, -, -, hmetasS, -, hjcS⟩
  have hb : best = ⟨"llama3.2", "a1", 5⟩ := by
    have : fastPick [(⟨"llama3.2", "a1", 5⟩ : Candidate), ⟨"qwen2.5", "a2", 7⟩] =
        some ⟨"llama3.2", "a1", 5⟩ := by decide
    rw [this] at hbest
    cases hbest
    rfl
  have hb2 : best2 = ⟨"llama3.2", "a1", 5⟩ := by
    have : fastPick [(⟨"llama3.2", "a1", 5⟩ : Candidate), ⟨"qwen2.5", "a2", 7⟩] =
        some ⟨"llama3.2", "a1", 5⟩ := by decide
    rw [this] at hbest2
    cases hbest2
    rfl
  subst hb
  subst hb2
  exact ⟨hout, hjc, hmetas, hmetasS, hjcS⟩

/-! ## Claim C8 -/

/-- C8: when the fan-out returns zero candidates, the synchronous
endpoint answers with the upstream-unavailable error (HTTP 502), the
streaming endpoint terminates the session with an error frame and no
summary, and neither writes a cache entry. -/
theorem claim_C8_zero_candidates_hard_error :
    ∀ (cache : CacheMap) (now : Nat) (promptRaw modeRaw : String)
      (o : SyncOracle) (so : StreamOracle),
      trimSpace promptRaw ≠ "" →
      cacheGet cache (cacheKey (trimSpace promptRaw) (normMode modeRaw)) now = none →
      (fanOut o.arrivals = [] →
        (handleAnswer cache now promptRaw modeRaw o).out =
          .badGateway "no model responses" ∧
        (handleAnswer cache now promptRaw modeRaw o).cacheAfter = cache) ∧
      (fanOut so.arrivals = [] →
        (handleAnswerStream cache now promptRaw modeRaw so).frames =
          [.status "running models...", .error "no model responses"] ∧
        frameMetas (handleAnswerStream cache now promptRaw modeRaw so).frames = [] ∧
        (handleAnswerStream cache now promptRaw modeRaw so).cacheAfter = cache) := by
  intro cache now promptRaw modeRaw o so hp hc
  constructor
  · intro hf
    constructor <;> simp [handleAnswer, hp, hc, hf]
  · intro hf
    refine ⟨?_, ?_, ?_⟩ <;>
      simp [handleAnswerStream, hp, hc, hf, frameMetas_status, frameMetas_error,
        frameMetas_nil]

/-- Witness for C8: with every backend erroring, the concrete run
answers 502 / an error frame and leaves the cache untouched. -/
theorem claim_C8_witness :
    (handleAnswer [] 0 "hi" "fast"
      ⟨[⟨"llama3.2", none, 5⟩, ⟨"qwen2.5", none, 7⟩], .genErr, none⟩).out =
      .badGateway "no model responses" ∧
    (handleAnswerStream [] 0 "hi" "fast"
      ⟨[⟨"llama3.2", none, 5⟩, ⟨"qwen2.5", none, 7⟩], .genErr, []⟩).frames =
      [.status "running models...", .error "no model responses"] := by
  have h := claim_C8_zero_candidates_hard_error [] 0 "hi" "fast"
    ⟨[⟨"llama3.2", none, 5⟩, ⟨"qwen2.5", none, 7⟩], .genErr, none⟩
    ⟨[⟨"llama3.2", none, 5⟩, ⟨"qwen2.5", none, 7⟩], .genErr, []⟩
    (by decide) (by decide)
  exact ⟨(h.1 (by decide)).1, (h.2 (by decide)).1⟩

/-! ## Claim C6 -/

/-- A fresh (cache-missing) successful `handleAnswer` execution returns
a response with the cached flag false and stores exactly that response
under the request's key, expiring at `now + ttl`. -/
theorem handleAnswer_fresh_ok (cache : CacheMap) (now : Nat) (promptRaw modeRaw : String)
    (o : SyncOracle) (resp : AnswerResponse)
    (hc : cacheGet cache (cacheKey (trimSpace promptRaw) (normMode modeRaw)) now = none) :
    (handleAnswer cache now promptRaw modeRaw o).out = .ok resp →
    trimSpace promptRaw ≠ "" ∧ resp.cached = false ∧
    (handleAnswer cache now promptRaw modeRaw o).cacheAfter =
      cacheSet cache (cacheKey (trimSpace promptRaw) (normMode modeRaw)) resp now
        (ttlFor (normMode modeRaw)) := by
  simp only [handleAnswer]
  split
  · intro h
    simp at h
  · split
    · rename_i v heq
      rw [hc] at heq
      cases heq
    · split
      · intro h
        simp at h
      · rename_i c0 rest heq
        split
        · intro h
          injection h with h2
          subst h2
          exact ⟨by assumption, rfl, rfl⟩
        · split
          · split
            · intro h
              simp at h
            · intro h
              injection h with h2
              subst h2
              exact ⟨by assumption, rfl, rfl⟩
          · split
            · split
              · intro h
                simp at h
              · intro h
                injection h with h2
                subst h2
                exact ⟨by assumption, rfl, rfl⟩
            · rename_i scores hj
              split
              · intro h
                simp at h
              · rename_i s0 srest
                split
                · intro h
                  simp at h
                · rename_i cBest hget
                  split
                  · intro h
                    simp at h
                  · split
                    · intro h
                      injection h with h2
                      subst h2
                      exact ⟨by assumption, rfl, rfl⟩
                    · split
                      · intro h
                        injection h with h2
                        subst h2
                        exact ⟨by assumption, rfl, rfl⟩
                      · intro h
                        injection h with h2
                        subst h2
                        exact ⟨by assumption, rfl, rfl⟩

/-- C6: after a fresh successful run, the exact response it constructed
is cached under the request's key; repeating the identical
(prompt, mode) request at any instant up to the entry's expiry answers
from the cache — zero fan-out, judge or synthesis calls — with the first
response, its cached flag set. -/
theorem claim_C6_cache_round_trip :
    ∀ (cache : CacheMap) (now now2 : Nat) (promptRaw modeRaw : String)
      (o o2 : SyncOracle) (resp : AnswerResponse),
      cacheGet cache (cacheKey (trimSpace promptRaw) (normMode modeRaw)) now = none →
      (handleAnswer cache now promptRaw modeRaw o).out = .ok resp →
      now2 ≤ now + ttlFor (normMode modeRaw) →
      lookupCache (handleAnswer cache now promptRaw modeRaw o).cacheAfter
          (cacheKey (trimSpace promptRaw) (normMode modeRaw)) =
        some ⟨resp, now + ttlFor (normMode modeRaw)⟩ ∧
      resp.cached = false ∧
      (handleAnswer (handleAnswer cache now promptRaw modeRaw o).cacheAfter now2
          promptRaw modeRaw o2).out = .ok { resp with cached := true } ∧
      (handleAnswer (handleAnswer cache now promptRaw modeRaw o).cacheAfter now2
          promptRaw modeRaw o2).genCalls = 0 ∧
      (handleAnswer (handleAnswer cache now promptRaw modeRaw o).cacheAfter now2
          promptRaw modeRaw o2).judgeCalls = 0 ∧
      (handleAnswer (handleAnswer cache now promptRaw modeRaw o).cacheAfter now2
          promptRaw modeRaw o2).synthCalls = 0 := by
  intro cache now now2 promptRaw modeRaw o o2 resp hc hok httl
  obtain ⟨hp, hcached, hafter⟩ := handleAnswer_fresh_ok cache now promptRaw modeRaw o resp hc hok
  rw [hafter]
  have hlook : lookupCache
      (cacheSet cache (cacheKey (trimSpace promptRaw) (normMode modeRaw)) resp now
        (ttlFor (normMode modeRaw)))
      (cacheKey (trimSpace promptRaw) (normMode modeRaw)) =
      some ⟨resp, now + ttlFor (normMode modeRaw)⟩ := by
    simp [cacheSet, lookupCache]
  have hhit : cacheGet
      (cacheSet cache (cacheKey (trimSpace promptRaw) (normMode modeRaw)) resp now
        (ttlFor (normMode modeRaw)))
      (cacheKey (trimSpace promptRaw) (normMode modeRaw)) now2 = some resp := by
    rw [cacheGet, hlook]
    simp only [if_neg (by omega : ¬ now2 > now + ttlFor (normMode modeRaw))]
  refine ⟨hlook, hcached, ?_, ?_, ?_, ?_⟩ <;>
    simp [handleAnswer, hp, hhit]

/-- Witness for C6: a concrete fast-mode request cached at instant 0 and
repeated at instant 600 (the fast TTL) hits the cache with zero calls. -/
theorem claim_C6_witness :
    (handleAnswer (handleAnswer [] 0 "hi" "fast"
        ⟨[⟨"llama3.2", some "ans", 5⟩], .genErr, none⟩).cacheAfter 600 "hi" "fast"
        ⟨[⟨"llama3.2", some "other", 9⟩], .genErr, none⟩).out =
      .ok ⟨"ans", [⟨"llama3.2", "ans", 5⟩], true, "fast"⟩ ∧
    (handleAnswer (handleAnswer [] 0 "hi" "fast"
        ⟨[⟨"llama3.2", some "ans", 5⟩], .genErr, none⟩).cacheAfter 600 "hi" "fast"
        ⟨[⟨"llama3.2", some "other", 9⟩], .genErr, none⟩).genCalls = 0 := by
  have h := claim_C6_cache_round_trip [] 0 600 "hi" "fast"
    ⟨[⟨"llama3.2", some "ans", 5⟩], .genErr, none⟩
    ⟨[⟨"llama3.2", some "other", 9⟩], .genErr, none⟩
    ⟨"ans", [⟨"llama3.2", "ans", 5⟩], false, "fast"⟩
    (by decide) (by decide) (by decide)
  exact ⟨h.2.2.1, h.2.2.2.1⟩

end LLMEnsemble
